import Mathlib

/-!
Verification development for the `redux-persist-expo-file-system-storage`
package: a shallow embedding of `ExpoFileSystemStorage`
(src/expo-file-system.storage.ts, current variant) and of the
`deepParseJson` utility (src/utils/deep-parse-json.util.ts), together with
theorems about the embedded definitions.

Modelling conventions:
- JavaScript promises are embedded as settled outcomes: an async operation
  is a pure function of the results of the underlying file-system calls it
  performs, which are passed in as explicit `Except` parameters.
- JS `Error` objects are embedded as `JsError` values carrying the message;
  object identity is reflected by value equality on the message.
- JS numbers are embedded as exact rationals (the claims under study only
  involve small integers, where double rounding is the identity).
- Logger sinks are embedded as lists of emitted lines in an `OpTrace`.
-/

/-- A JavaScript `Error` as observed by this library: only the message is
consulted (in `handleStorageError`). -/
structure JsError where
  message : String
deriving DecidableEq, Repr

/-- A JSON value as produced by `JSON.parse`: object fields keep insertion
order, as JS objects with non-numeric string keys do. -/
inductive Json where
  | null : Json
  | bool (b : Bool) : Json
  | num (q : Rat) : Json
  | str (s : String) : Json
  | arr (elems : List Json) : Json
  | obj (fields : List (String × Json)) : Json
deriving Repr

/-- The character `{`. -/
def lbraceChar : Char := Char.ofNat 123

/-- The character `}`. -/
def rbraceChar : Char := Char.ofNat 125

/-- The character `'`. -/
def squoteChar : Char := Char.ofNat 39

/-- ASCII decimal digit test. -/
def isDigitChar (c : Char) : Bool :=
  decide ('0' ≤ c) && decide (c ≤ '9')

/-- JSON insignificant whitespace (space, tab, line feed, carriage return). -/
def isJsonWs (c : Char) : Bool :=
  c = ' ' || c = '\t' || c = '\n' || c = '\r'

/-- Drop leading JSON whitespace. -/
def skipWs : List Char → List Char
  | [] => []
  | c :: cs => if isJsonWs c then skipWs cs else c :: cs

/-- Value of a decimal digit run, most significant first. -/
def digitsToNat (l : List Char) : Nat :=
  l.foldl (fun n c => n * 10 + (c.toNat - 48)) 0

/-- Value of a hexadecimal digit, if any. -/
def hexDigitVal (c : Char) : Option Nat :=
  if isDigitChar c then some (c.toNat - 48)
  else if decide ('a' ≤ c) && decide (c ≤ 'f') then some (c.toNat - 87)
  else if decide ('A' ≤ c) && decide (c ≤ 'F') then some (c.toNat - 55)
  else none

/-- Parse the optional exponent part of a JSON number and apply it to the
mantissa value accumulated so far. -/
def parseExpPart (q : Rat) (cs : List Char) : Option (Rat × List Char) :=
  match cs with
  | [] => some (q, [])
  | c :: rest =>
    if c = 'e' || c = 'E' then
      let spl : Bool × List Char :=
        match rest with
        | '+' :: r => (false, r)
        | '-' :: r => (true, r)
        | r => (false, r)
      let eds := spl.2.takeWhile isDigitChar
      let r2 := spl.2.dropWhile isDigitChar
      if eds = [] then none
      else
        let e := digitsToNat eds
        some (if spl.1 then q / ((10 : Rat) ^ e) else q * ((10 : Rat) ^ e), r2)
    else some (q, cs)

/-- Parse a JSON number token (sign, integer part without leading zeros,
optional fraction, optional exponent), returning its exact rational value. -/
def parseNumber (cs : List Char) : Option (Rat × List Char) :=
  let spl : Bool × List Char :=
    match cs with
    | '-' :: r => (true, r)
    | _ => (false, cs)
  let ds := spl.2.takeWhile isDigitChar
  let r1 := spl.2.dropWhile isDigitChar
  if ds = [] then none
  else if 1 < ds.length ∧ ds.head? = some '0' then none
  else
    let ip : Rat := (digitsToNat ds : Nat)
    match r1 with
    | '.' :: r2 =>
      let fs := r2.takeWhile isDigitChar
      let r3 := r2.dropWhile isDigitChar
      if fs = [] then none
      else
        let v : Rat := ip + (digitsToNat fs : Rat) / ((10 : Rat) ^ fs.length)
        match parseExpPart v r3 with
        | some (v2, r4) => some (if spl.1 then -v2 else v2, r4)
        | none => none
    | _ =>
      match parseExpPart ip r1 with
      | some (v2, r4) => some (if spl.1 then -v2 else v2, r4)
      | none => none

/-- Parse the body of a JSON string token (the opening quote already
consumed), handling the JSON escape sequences and rejecting raw control
characters, as `JSON.parse` does. -/
def parseJsonStringBody (fuel : Nat) (cs : List Char) (acc : List Char) :
    Option (String × List Char) :=
  match fuel, cs with
  | 0, _ => none
  | _, [] => none
  | fuel + 1, c :: rest =>
    if c = '"' then some (String.mk acc.reverse, rest)
    else if c = '\\' then
      match rest with
      | [] => none
      | e :: rest2 =>
        if e = '"' then parseJsonStringBody fuel rest2 ('"' :: acc)
        else if e = '\\' then parseJsonStringBody fuel rest2 ('\\' :: acc)
        else if e = '/' then parseJsonStringBody fuel rest2 ('/' :: acc)
        else if e = 'b' then parseJsonStringBody fuel rest2 (Char.ofNat 8 :: acc)
        else if e = 'f' then parseJsonStringBody fuel rest2 (Char.ofNat 12 :: acc)
        else if e = 'n' then parseJsonStringBody fuel rest2 ('\n' :: acc)
        else if e = 'r' then parseJsonStringBody fuel rest2 ('\r' :: acc)
        else if e = 't' then parseJsonStringBody fuel rest2 ('\t' :: acc)
        else if e = 'u' then
          match rest2 with
          | a :: b :: c2 :: d :: rest3 =>
            match hexDigitVal a, hexDigitVal b, hexDigitVal c2, hexDigitVal d with
            | some va, some vb, some vc, some vd =>
              parseJsonStringBody fuel rest3
                (Char.ofNat (va * 4096 + vb * 256 + vc * 16 + vd) :: acc)
            | _, _, _, _ => none
          | _ => none
        else none
    else if c.toNat < 32 then none
    else parseJsonStringBody fuel rest (c :: acc)

/-- Record a parsed object member the way property assignment does in JS:
a repeated key overwrites the earlier value in place, a new key is appended. -/
def insertMember (fields : List (String × Json)) (k : String) (v : Json) :
    List (String × Json) :=
  if fields.any (fun kv => kv.1 = k) then
    fields.map (fun kv => if kv.1 = k then (k, v) else kv)
  else fields ++ [(k, v)]

mutual

/-- Parse one JSON value (fuel-indexed recursive descent). -/
def parseValue : Nat → List Char → Option (Json × List Char)
  | 0, _ => none
  | fuel + 1, cs =>
    match skipWs cs with
    | [] => none
    | c :: rest =>
      if c = '"' then
        match parseJsonStringBody (rest.length + 1) rest [] with
        | some (s, r) => some (Json.str s, r)
        | none => none
      else if c = lbraceChar then parseMembersStart fuel rest
      else if c = '[' then parseElemsStart fuel rest
      else if c = 't' then
        match rest with
        | 'r' :: 'u' :: 'e' :: r => some (Json.bool true, r)
        | _ => none
      else if c = 'f' then
        match rest with
        | 'a' :: 'l' :: 's' :: 'e' :: r => some (Json.bool false, r)
        | _ => none
      else if c = 'n' then
        match rest with
        | 'u' :: 'l' :: 'l' :: r => some (Json.null, r)
        | _ => none
      else
        match parseNumber (c :: rest) with
        | some (q, r) => some (Json.num q, r)
        | none => none

/-- Parse an array body (the `[` already consumed). -/
def parseElemsStart : Nat → List Char → Option (Json × List Char)
  | 0, _ => none
  | fuel + 1, cs =>
    match skipWs cs with
    | ']' :: rest => some (Json.arr [], rest)
    | cs2 =>
      match parseValue fuel cs2 with
      | some (v, r) => parseElemsRest fuel r [v]
      | none => none

/-- Parse the remaining elements of an array after the first. -/
def parseElemsRest : Nat → List Char → List Json → Option (Json × List Char)
  | 0, _, _ => none
  | fuel + 1, cs, acc =>
    match skipWs cs with
    | ',' :: rest =>
      match parseValue fuel rest with
      | some (v, r) => parseElemsRest fuel r (acc ++ [v])
      | none => none
    | ']' :: rest => some (Json.arr acc, rest)
    | _ => none

/-- Parse an object body (the `{` already consumed). -/
def parseMembersStart : Nat → List Char → Option (Json × List Char)
  | 0, _ => none
  | fuel + 1, cs =>
    match skipWs cs with
    | [] => none
    | c :: rest =>
      if c = rbraceChar then some (Json.obj [], rest)
      else parseMember fuel (c :: rest) []

/-- Parse one `"key": value` member, then the rest of the object. -/
def parseMember : Nat → List Char → List (String × Json) →
    Option (Json × List Char)
  | 0, _, _ => none
  | fuel + 1, cs, acc =>
    match skipWs cs with
    | '"' :: rest =>
      match parseJsonStringBody (rest.length + 1) rest [] with
      | some (k, r1) =>
        match skipWs r1 with
        | ':' :: r2 =>
          match parseValue fuel r2 with
          | some (v, r3) =>
            match skipWs r3 with
            | ',' :: r4 => parseMember fuel r4 (insertMember acc k v)
            | c :: r4 =>
              if c = rbraceChar then some (Json.obj (insertMember acc k v), r4)
              else none
            | [] => none
          | none => none
        | _ => none
      | none => none
    | _ => none

end

/-- `JSON.parse` on a string: parse one value surrounded by optional
whitespace; any leftover input is a syntax error. The fuel is a generous
bound on the recursion depth, which consumes at least one character for
every two fuel steps. -/
def jsonParse (s : String) : Option Json :=
  match parseValue (3 * s.length + 3) s.data with
  | some (v, r) => if skipWs r = [] then some v else none
  | none => none

/-- Decimal scale of a denominator: the least `k ≤ 40` with `den ∣ 10 ^ k`,
if any. Denominators produced by `parseNumber` are powers of ten, so the
search always succeeds on parsed JSON numbers. -/
def decExp (den : Nat) : Option Nat :=
  (List.range 41).find? (fun k => 10 ^ k % den = 0)

/-- Strip trailing `0` characters. -/
def stripTrailingZeros (l : List Char) : List Char :=
  (l.reverse.dropWhile (fun c => c = '0')).reverse

/-- Left-pad a digit string with zeros to width `k`. -/
def padZerosTo (k : Nat) (s : String) : String :=
  String.mk (List.replicate (k - s.length) '0') ++ s

/-- The decimal rendering JS gives a finite-decimal number (ToString on a
double prints the shortest decimal form; for the exact decimals produced by
the JSON parser this is plain decimal notation without an exponent, which
is what JS uses for the moderate magnitudes relevant here). -/
def ratToString (q : Rat) : String :=
  let sign := if q.num < 0 then "-" else ""
  match decExp q.den with
  | none => sign ++ toString q.num.natAbs ++ "/" ++ toString q.den
  | some k =>
    let scaled := q.num.natAbs * 10 ^ k / q.den
    let ip := scaled / 10 ^ k
    let fp := scaled % 10 ^ k
    if fp = 0 then sign ++ toString ip
    else
      sign ++ toString ip ++ "." ++
        String.mk (stripTrailingZeros (padZerosTo k (toString fp)).data)

/-- Escape one character as inside `JSON.stringify`'s string quoting. -/
def escapeJsonChar (c : Char) : String :=
  if c = '"' then "\\\""
  else if c = '\\' then "\\\\"
  else if c = '\n' then "\\n"
  else if c = '\r' then "\\r"
  else if c = '\t' then "\\t"
  else if c = Char.ofNat 8 then "\\b"
  else if c = Char.ofNat 12 then "\\f"
  else if c.toNat < 32 then
    "\\u00" ++ String.mk [(Nat.digitChar (c.toNat / 16)), (Nat.digitChar (c.toNat % 16))]
  else String.singleton c

/-- `JSON.stringify`'s quoting of a string value. -/
def quoteJsonString (s : String) : String :=
  "\"" ++ String.join (s.data.map escapeJsonChar) ++ "\""

mutual

/-- `JSON.stringify` on a JSON value (no replacer, no indent). -/
def jsonStringify : Json → String
  | Json.null => "null"
  | Json.bool b => if b then "true" else "false"
  | Json.num q => ratToString q
  | Json.str s => quoteJsonString s
  | Json.arr xs => "[" ++ String.intercalate "," (stringifyItems xs) ++ "]"
  | Json.obj fs =>
      String.singleton lbraceChar ++ String.intercalate "," (stringifyFields fs) ++
        String.singleton rbraceChar

/-- Renderings of array elements for `jsonStringify`. -/
def stringifyItems : List Json → List String
  | [] => []
  | v :: vs => jsonStringify v :: stringifyItems vs

/-- Renderings of object members for `jsonStringify`. -/
def stringifyFields : List (String × Json) → List String
  | [] => []
  | kv :: rest => (quoteJsonString kv.1 ++ ":" ++ jsonStringify kv.2) :: stringifyFields rest

end

mutual

/-- The JS `String()` coercion of a JSON value: this is what `JSON.parse`
applies to a non-string argument before parsing. Arrays stringify as their
elements joined with commas (`null` joining as the empty string); plain
objects stringify as `[object Object]`. -/
def jsToString : Json → String
  | Json.null => "null"
  | Json.bool b => if b then "true" else "false"
  | Json.num q => ratToString q
  | Json.str s => s
  | Json.arr xs => String.intercalate "," (jsJoinItems xs)
  | Json.obj _ => "[object Object]"

/-- `Array.prototype.toString` renderings of the elements (a `null` element
joins as the empty string). -/
def jsJoinItems : List Json → List String
  | [] => []
  | Json.null :: vs => "" :: jsJoinItems vs
  | v :: vs => jsToString v :: jsJoinItems vs

end

/-- `convertToString` (deep-parse-json.util.ts): a string is returned as is,
any other JSON value is re-stringified. -/
def convertToString (value : Json) : String :=
  match value with
  | Json.str s => s
  | v => jsonStringify v

/-- JS whitespace trimmed by the `Number()` coercion. -/
def isJsTrimWs (c : Char) : Bool :=
  c = ' ' || c = '\t' || c = '\n' || c = '\r' || c = Char.ofNat 11 || c = Char.ofNat 12

/-- Trim leading and trailing JS whitespace. -/
def jsTrim (l : List Char) : List Char :=
  ((l.dropWhile isJsTrimWs).reverse.dropWhile isJsTrimWs).reverse

/-- Optional exponent tail of a JS decimal literal. -/
def jsNumExpTail (l : List Char) : Bool :=
  match l with
  | [] => true
  | c :: rest =>
    if c = 'e' || c = 'E' then
      let r1 := match rest with
        | '+' :: r => r
        | '-' :: r => r
        | _ => rest
      r1 ≠ [] && r1.all isDigitChar
    else false

/-- An unsigned JS decimal literal body (`digits`, `digits.digits?`,
`.digits`, with optional exponent), or `Infinity`. -/
def jsUnsignedNumeric (l : List Char) : Bool :=
  if l = "Infinity".data then true
  else
    let ds := l.takeWhile isDigitChar
    let r1 := l.dropWhile isDigitChar
    match r1 with
    | '.' :: r2 =>
      let fs := r2.takeWhile isDigitChar
      let r3 := r2.dropWhile isDigitChar
      (ds ≠ [] || fs ≠ []) && jsNumExpTail r3
    | _ => ds ≠ [] && jsNumExpTail r1

/-- A radix-prefixed JS numeric literal (`0x…`, `0o…`, `0b…`, unsigned only). -/
def jsRadixNumeric (l : List Char) : Bool :=
  match l with
  | '0' :: c :: rest =>
    if c = 'x' || c = 'X' then rest ≠ [] && rest.all (fun d => (hexDigitVal d).isSome)
    else if c = 'o' || c = 'O' then rest ≠ [] && rest.all (fun d => decide ('0' ≤ d) && decide (d ≤ '7'))
    else if c = 'b' || c = 'B' then rest ≠ [] && rest.all (fun d => d = '0' || d = '1')
    else false
  | _ => false

/-- `isNumericString` (deep-parse-json.util.ts): `!Number.isNaN(Number(str))`,
modelled over the literal forms `Number()` accepts — the empty/whitespace
string coerces to `0`, otherwise an optionally signed decimal literal or
`Infinity`, or an unsigned radix-prefixed literal. -/
def isNumericString (s : String) : Bool :=
  let t := jsTrim s.data
  if t = [] then true
  else
    match t with
    | '+' :: r => jsUnsignedNumeric r
    | '-' :: r => jsUnsignedNumeric r
    | _ => jsUnsignedNumeric t || jsRadixNumeric t

/-- `isNumericJsonValue` (deep-parse-json.util.ts): a string value whose
`Number()` coercion is not NaN. -/
def isNumericJsonValue (v : Json) : Bool :=
  match v with
  | Json.str s => isNumericString s
  | _ => false

/-- `deepParseJson` (deep-parse-json.util.ts). The TS function declares a
string parameter but recursively passes raw JSON values in its array
branch; the embedding therefore takes a `Json` input, a string argument
being `Json.str`. `JSON.parse` coerces a non-string argument with `String()`
(`jsToString`); a parse failure returns the argument unchanged (the `catch`
branch). Recursion is fuel-indexed; the fuel-exhausted result (never reached
for the inputs considered in the theorems below) returns the input. -/
def deepParseJson : Nat → Json → Json
  | 0, input => input
  | fuel + 1, input =>
    match jsonParse (jsToString input) with
    | none => input
    | some parsed =>
      if isNumericJsonValue parsed then parsed
      else
        match parsed with
        | Json.arr xs => Json.arr (xs.map (deepParseJson fuel))
        | Json.obj fields =>
            Json.obj (fields.map (fun kv => (kv.1, deepParseJson fuel (Json.str (convertToString kv.2)))))
        | p => p

/-- The single-quote wrapping the engine puts around keys in its messages. -/
def quoted (s : String) : String :=
  String.singleton squoteChar ++ s ++ String.singleton squoteChar

/-- The engine's merged options; `encoding` and the logger sinks are
pass-throughs to the collaborator and are represented by the call-result
parameters and the trace respectively. -/
structure Options where
  storagePath : String
  debug : Bool
deriving DecidableEq, Repr

instance instDecEqExcept {ε α : Type} [DecidableEq ε] [DecidableEq α] :
    DecidableEq (Except ε α) := fun a b =>
  match a, b with
  | Except.error e1, Except.error e2 =>
    if h : e1 = e2 then isTrue (congrArg Except.error h)
    else isFalse (fun hh => h (Except.error.inj hh))
  | Except.ok a1, Except.ok a2 =>
    if h : a1 = a2 then isTrue (congrArg Except.ok h)
    else isFalse (fun hh => h (Except.ok.inj hh))
  | Except.error _, Except.ok _ => isFalse (fun hh => Except.noConfusion hh)
  | Except.ok _, Except.error _ => isFalse (fun hh => Except.noConfusion hh)

/-- The initialization promise slot of an engine instance: either absent
(`initializationPromise === null`) or an initialization task; awaiting a
task suspends until it settles, so a task is embedded by its settled
outcome. -/
inductive InitPromise where
  | missing : InitPromise
  | settled (r : Except JsError Unit) : InitPromise
deriving DecidableEq, Repr

/-- The mutable per-instance state of `ExpoFileSystemStorage`: the set of
already-read keys (`readKeys`, kept as a list without duplicates), the
`isInitialized` flag and the `initializationPromise` slot. -/
structure EngineState where
  readKeys : List String
  isInitialized : Bool
  initPromise : InitPromise
deriving DecidableEq, Repr

/-- Observable effects of one operation: lines given to the debug sink,
lines given to the error sink, `Error` values given to an `onFail`
callback, and values given to an `onSuccess` callback. -/
structure OpTrace where
  debugLogs : List String := []
  errorLogs : List String := []
  onFailErrors : List JsError := []
  onSuccessValues : List String := []
deriving DecidableEq, Repr

/-- Result of one public operation: its outcome (resolved value or the
rejection error), the engine state afterwards, and the observable trace. -/
structure OpResult (α : Type) where
  outcome : Except JsError α
  state : EngineState
  trace : OpTrace

/-- `logDebugMessage`: the debug sink receives the message wrapped in the
cyan color code and the class-name prefix. -/
def debugLogLine (m : String) : String :=
  "\x1b[36m" ++ "ExpoFileSystemStorage: " ++ m ++ "\x1b[0m"

/-- `logErrorMessage`: the error sink receives the message wrapped in the
red color code and the class-name prefix. -/
def errorLogLine (m : String) : String :=
  "\x1b[31m" ++ "ExpoFileSystemStorage: " ++ m ++ "\x1b[0m"

/-- `logDebugMessageInDebugMode`: emits a `[DEBUG]`-prefixed debug line
only when debug mode is enabled. -/
def debugInDebugMode (opts : Options) (m : String) : List String :=
  if opts.debug then [debugLogLine ("[DEBUG] " ++ m)] else []

/-- `handleStorageError`: the combined message, the line given to the error
sink, the freshly constructed `Error` handed to `onFail` (when supplied),
and the re-thrown error, which is the original one. -/
structure HandleResult where
  detailedMessage : String
  loggedLine : String
  onFailArg : Option JsError
  thrown : JsError
deriving DecidableEq, Repr

/-- `ExpoFileSystemStorage.handleStorageError`. -/
def handleStorageError (errorMessage : String) (e : JsError) (hasOnFail : Bool) :
    HandleResult :=
  let detailed := errorMessage ++ ": " ++ e.message
  { detailedMessage := detailed
    loggedLine := errorLogLine detailed
    onFailArg := if hasOnFail then some (JsError.mk detailed) else none
    thrown := e }

/-- The trace produced by a failure routed through `handleStorageError`. -/
def failureTrace (h : HandleResult) : OpTrace :=
  { errorLogs := [h.loggedLine]
    onFailErrors := match h.onFailArg with
      | some w => [w]
      | none => [] }

/-- The message of `waitForInitialization`'s missing-promise error. -/
def initPromiseNotFoundMsg : String :=
  "(waitForInitialization): The initialization has failed (INITIALIZATION_PROMISE_NOT_FOUND)"

/-- `ExpoFileSystemStorage.waitForInitialization`: immediate success when
`isInitialized` is set; otherwise an error when no initialization promise
exists, else the awaited settled outcome of the initialization task. -/
def waitForInitialization (st : EngineState) : Except JsError Unit :=
  if st.isInitialized then Except.ok ()
  else
    match st.initPromise with
    | InitPromise.missing => Except.error (JsError.mk initPromiseNotFoundMsg)
    | InitPromise.settled r => r

/-- Outcome of `ExpoFileSystemStorage.initialize`: the settled result of
the task, whether `isInitialized` was set, and the error lines logged. -/
structure InitOutcome where
  result : Except JsError Unit
  inited : Bool
  errorLogs : List String
deriving DecidableEq, Repr

/-- `ExpoFileSystemStorage.initialize`, as a function of the hook and
collaborator call results. A throwing `beforeInit` rejects the task before
the try block (nothing is logged). Inside the try: a failing existence
query is caught and routed through `handleStorageError` (logged, rethrown);
when the directory is absent the `makeDirectoryAsync` promise is returned
without awaiting, so its failure escapes uncaught and `isInitialized` is
never set on this path; when it is present, a throwing `afterInit` is
caught and routed through `handleStorageError`, otherwise `isInitialized`
is set. Debug lines of this method are not tracked. -/
def initStorage (beforeInit : Option (Except JsError Unit))
    (getInfoRes : Except JsError Bool) (mkDirRes : Except JsError Unit)
    (afterInit : Option (Except JsError Unit)) : InitOutcome :=
  match beforeInit with
  | some (Except.error e) => ⟨Except.error e, false, []⟩
  | _ =>
    match getInfoRes with
    | Except.error e =>
      let h := handleStorageError "(initialize): Error initializing storage" e false
      ⟨Except.error h.thrown, false, [h.loggedLine]⟩
    | Except.ok dirExists =>
      if dirExists = false then ⟨mkDirRes, false, []⟩
      else
        match afterInit with
        | some (Except.error e) =>
          let h := handleStorageError "(initialize): Error initializing storage" e false
          ⟨Except.error h.thrown, false, [h.loggedLine]⟩
        | _ => ⟨Except.ok (), true, []⟩

/-- The engine state right after construction, once the initialization task
started by the constructor has settled: `readKeys` is empty, `isInitialized`
and the retained promise reflect the task. -/
def mkEngine (beforeInit : Option (Except JsError Unit))
    (getInfoRes : Except JsError Bool) (mkDirRes : Except JsError Unit)
    (afterInit : Option (Except JsError Unit)) : EngineState :=
  let outcome := initStorage beforeInit getInfoRes mkDirRes afterInit
  { readKeys := []
    isInitialized := outcome.inited
    initPromise := InitPromise.settled outcome.result }

/-- The character class kept verbatim by the key encoder: the regex
`[^a-z0-9.\-_]/gi` replaces everything outside ASCII letters (the `i` flag
covering both cases), digits, period, hyphen and underscore. -/
def isAllowedKeyChar (c : Char) : Bool :=
  (decide ('a' ≤ c) && decide (c ≤ 'z')) ||
  (decide ('A' ≤ c) && decide (c ≤ 'Z')) ||
  (decide ('0' ≤ c) && decide (c ≤ '9')) ||
  c = '.' || c = '-' || c = '_'

/-- The file-name segment of `pathForKey`: every disallowed character is
replaced by a hyphen. -/
def encodeKey (key : String) : String :=
  String.mk (key.data.map (fun c => if isAllowedKeyChar c then c else '-'))

/-- `ExpoFileSystemStorage.pathForKey`: storage directory concatenated with
the encoded file name (no extension). -/
def pathForKey (opts : Options) (key : String) : String :=
  opts.storagePath ++ encodeKey key

/-- The boolean `itemExists` computes from the `getInfoAsync` outcome: the
reported existence flag, or `false` when the query itself failed. -/
def evalExists (infoRes : Except JsError Bool) : Bool :=
  match infoRes with
  | Except.ok b => b
  | Except.error _ => false

/-- `ExpoFileSystemStorage.itemExists`: awaits initialization (an
initialization failure rejects), then resolves to the existence flag,
collapsing a failing query to `false`. -/
def itemExists (st : EngineState) (infoRes : Except JsError Bool) :
    Except JsError Bool :=
  match waitForInitialization st with
  | Except.error e => Except.error e
  | Except.ok _ => Except.ok (evalExists infoRes)

/-- `readKeys.add(key)` on the embedded read-key set. -/
def addReadKey (keys : List String) (key : String) : List String :=
  if keys.contains key then keys else key :: keys

/-- The `errorMessage` ternary of `getItem`'s catch branch: the
first-time-but-existing variant or the plain variant. -/
def getItemErrorMessage (isFirst : Bool) (key : String) : String :=
  if isFirst then
    "(getItem): Error getting item for key " ++ quoted key ++
      ". The item was read for the first time and exists in the storage, but an error occurred while reading it."
  else "(getItem): Error getting item for key " ++ quoted key

/-- `ExpoFileSystemStorage.getItem`, as a function of the settled outcomes
of the read (`readRes`) and of the existence query a read failure triggers
(`infoRes`). Debug-log parameters (the deep-parsed content) are elided from
the trace lines. -/
def getItem (opts : Options) (st : EngineState) (key : String)
    (readRes : Except JsError String) (infoRes : Except JsError Bool)
    (hasOnFail : Bool) : OpResult String :=
  match waitForInitialization st with
  | Except.error e => ⟨Except.error e, st, {}⟩
  | Except.ok _ =>
    let isFirst := !(st.readKeys.contains key)
    let st1 := { st with readKeys := addReadKey st.readKeys key }
    match readRes with
    | Except.ok content =>
      ⟨Except.ok content, st1,
        { debugLogs := debugInDebugMode opts ("(getItem): Get item for key " ++ quoted key)
          onSuccessValues := [content] }⟩
    | Except.error e =>
      match itemExists st1 infoRes with
      | Except.error e2 => ⟨Except.error e2, st1, {}⟩
      | Except.ok isItemExistent =>
        if isFirst && !isItemExistent then
          ⟨Except.ok "", st1,
            { debugLogs := debugInDebugMode opts
                ("(getItem): Item for key " ++ quoted key ++
                 " was read for the first time, but it doesn" ++
                 String.singleton squoteChar ++
                 "t exist in the storage. Maybe it was not set yet.") }⟩
        else
          let h := handleStorageError (getItemErrorMessage isFirst key) e hasOnFail
          ⟨Except.error h.thrown, st1, failureTrace h⟩

set_option linter.unusedVariables false in
/-- `ExpoFileSystemStorage.setItem`, as a function of the settled outcome
of the write (the value reaches the file system through that call, so the
model consumes it only through `writeRes`). -/
def setItem (opts : Options) (st : EngineState) (key value : String)
    (writeRes : Except JsError Unit) (hasOnFail : Bool) : OpResult Unit :=
  match waitForInitialization st with
  | Except.error e => ⟨Except.error e, st, {}⟩
  | Except.ok _ =>
    match writeRes with
    | Except.ok _ =>
      ⟨Except.ok (), st,
        { debugLogs := debugInDebugMode opts ("(setItem): Set item for key " ++ quoted key)
          onSuccessValues := [""] }⟩
    | Except.error e =>
      let h := handleStorageError
        ("(setItem): Error setting item for key " ++ quoted key) e hasOnFail
      ⟨Except.error h.thrown, st, failureTrace h⟩

/-- `ExpoFileSystemStorage.clear`, as a function of the settled outcomes of
the directory deletion and recreation. `readKeys` is cleared before either
file-system call is issued. -/
def clear (opts : Options) (st : EngineState)
    (delRes mkDirRes : Except JsError Unit) (hasOnFail : Bool) : OpResult Unit :=
  match waitForInitialization st with
  | Except.error e => ⟨Except.error e, st, {}⟩
  | Except.ok _ =>
    let preLog := debugInDebugMode opts "(clear): Clearing storage..."
    let st1 := { st with readKeys := [] }
    match delRes with
    | Except.error e =>
      let h := handleStorageError "(clear): Error clearing storage" e hasOnFail
      ⟨Except.error h.thrown, st1,
        { failureTrace h with debugLogs := preLog }⟩
    | Except.ok _ =>
      match mkDirRes with
      | Except.error e =>
        let h := handleStorageError "(clear): Error clearing storage" e hasOnFail
        ⟨Except.error h.thrown, st1,
          { failureTrace h with debugLogs := preLog }⟩
      | Except.ok _ =>
        ⟨Except.ok (), st1,
          { debugLogs := preLog ++
              debugInDebugMode opts "(clear): Storage cleared successfully!"
            onSuccessValues := [""] }⟩

/-- `ExpoFileSystemStorage.hasStoredItems`, as a function of the settled
outcome of the directory listing. In the catch branch the
`handleStorageError` call is not awaited, so its rejection escapes nothing:
the `finally` block returns the flag (still `false`), swallowing the
failure, after the error line was already emitted synchronously. -/
def hasStoredItems (opts : Options) (st : EngineState)
    (listRes : Except JsError (List String)) : OpResult Bool :=
  match waitForInitialization st with
  | Except.error e => ⟨Except.error e, st, {}⟩
  | Except.ok _ =>
    match listRes with
    | Except.ok fileNames =>
      let flag := decide (0 < fileNames.length)
      ⟨Except.ok flag, st,
        { debugLogs := debugInDebugMode opts
            ("(hasStoredItems): Has stored items: " ++
             quoted (if flag then "true" else "false")) }⟩
    | Except.error e =>
      let h := handleStorageError "(hasStoredItems): Error checking for stored items" e false
      ⟨Except.ok false, st,
        { debugLogs := debugInDebugMode opts
            ("(hasStoredItems): Has stored items: " ++ quoted "false")
          errorLogs := [h.loggedLine] }⟩

/-- The file-system directory contents, path to content. `writeAsStringAsync`
creates or overwrites the file whole; `readAsStringAsync` fails when the
path is absent. -/
def fsWrite (w : List (String × String)) (path content : String) :
    List (String × String) :=
  (path, content) :: w.filter (fun kv => kv.1 ≠ path)

/-- Read a file from the directory model; absence is a rejection. -/
def fsRead (w : List (String × String)) (path : String) : Except JsError String :=
  match w.find? (fun kv => kv.1 = path) with
  | some kv => Except.ok kv.2
  | none => Except.error (JsError.mk ("File " ++ quoted path ++ " could not be read"))

/-- Mapping the encoder's character substitution over a list of allowed
characters is the identity. -/
theorem map_allowed_id (l : List Char) (h : ∀ c ∈ l, isAllowedKeyChar c) :
    l.map (fun c => if isAllowedKeyChar c then c else '-') = l := by
  induction l with
  | nil => rfl
  | cons c cs ih =>
    have hc : isAllowedKeyChar c := h c (List.mem_cons_self c cs)
    have hcs : ∀ x ∈ cs, isAllowedKeyChar x := fun x hx => h x (List.mem_cons_of_mem c hx)
    simp [hc, ih hcs]

/-- The encoder is the identity on keys built from allowed characters. -/
theorem encodeKey_of_allowed (k : String) (h : ∀ c ∈ k.data, isAllowedKeyChar c) :
    encodeKey k = k := by
  unfold encodeKey
  rw [map_allowed_id k.data h]

/-- C5: the key encoder replaces every character that is not an ASCII
letter, digit, period, hyphen or underscore (case-insensitively) with a
hyphen; it is deterministic and pure; two distinct keys built only from
allowed characters encode to different segments; and the full file path is
the configured storage directory concatenated with the encoded segment,
with no extension appended. -/
theorem encodeKey_pathForKey_spec (opts : Options) (k k1 k2 : String)
    (h1 : ∀ c ∈ k1.data, isAllowedKeyChar c)
    (h2 : ∀ c ∈ k2.data, isAllowedKeyChar c)
    (hne : k1 ≠ k2) :
    (encodeKey k).data = k.data.map (fun c => if isAllowedKeyChar c then c else '-')
    ∧ encodeKey k = encodeKey k
    ∧ encodeKey k1 ≠ encodeKey k2
    ∧ pathForKey opts k = opts.storagePath ++ encodeKey k := by
  refine ⟨rfl, rfl, ?_, rfl⟩
  rw [encodeKey_of_allowed k1 h1, encodeKey_of_allowed k2 h2]
  exact hne

/-- Witness for C5 at concrete inputs. -/
theorem encodeKey_pathForKey_spec_witness :
    (encodeKey "user:1").data
        = "user:1".data.map (fun c => if isAllowedKeyChar c then c else '-')
    ∧ encodeKey "user:1" = encodeKey "user:1"
    ∧ encodeKey "a.b-c_1" ≠ encodeKey "a.b-c_2"
    ∧ pathForKey (Options.mk "/data/" false) "user:1"
        = "/data/" ++ encodeKey "user:1" :=
  encodeKey_pathForKey_spec (Options.mk "/data/" false) "user:1" "a.b-c_1" "a.b-c_2"
    (by decide) (by decide) (by decide)

/-- C3: on a failure routed through the error policy, the engine builds
one combined message (prefix plus underlying message), hands exactly that
combined message to the error sink (inside the standard log wrapping),
hands the callback a newly constructed error carrying the combined message
(never the original error value), and re-raises the original error itself. -/
theorem handleStorageError_spec (errorMessage : String) (e : JsError)
    (hasOnFail : Bool) :
    (handleStorageError errorMessage e hasOnFail).detailedMessage
        = errorMessage ++ ": " ++ e.message
    ∧ (handleStorageError errorMessage e hasOnFail).loggedLine
        = errorLogLine (errorMessage ++ ": " ++ e.message)
    ∧ (hasOnFail = true →
        (handleStorageError errorMessage e hasOnFail).onFailArg
          = some (JsError.mk (errorMessage ++ ": " ++ e.message)))
    ∧ (hasOnFail = false →
        (handleStorageError errorMessage e hasOnFail).onFailArg = none)
    ∧ (handleStorageError errorMessage e hasOnFail).thrown = e
    ∧ (∀ w, (handleStorageError errorMessage e hasOnFail).onFailArg = some w →
        w ≠ e) := by
  refine ⟨rfl, rfl, fun h => by simp [handleStorageError, h],
    fun h => by simp [handleStorageError, h], rfl, ?_⟩
  intro w hw
  have hmsg : w.message = errorMessage ++ ": " ++ e.message := by
    cases hasOnFail with
    | false => simp [handleStorageError] at hw
    | true =>
      simp [handleStorageError] at hw
      rw [← hw]
  intro hwe
  rw [hwe] at hmsg
  have hlen := congrArg String.length hmsg
  rw [String.length_append, String.length_append] at hlen
  have h2 : (": ").length = 2 := rfl
  omega

/-- Witness for C3 at a concrete prefix and error. -/
theorem handleStorageError_spec_witness :
    (handleStorageError "(clear): Error clearing storage" (JsError.mk "disk full")
        true).thrown = JsError.mk "disk full"
    ∧ ∀ w, (handleStorageError "(clear): Error clearing storage"
        (JsError.mk "disk full") true).onFailArg = some w → w ≠ JsError.mk "disk full" :=
  ⟨(handleStorageError_spec "(clear): Error clearing storage" (JsError.mk "disk full")
      true).2.2.2.2.1,
   (handleStorageError_spec "(clear): Error clearing storage" (JsError.mk "disk full")
      true).2.2.2.2.2⟩

/-- C7: deep-normalizing the concrete input `{"a":"{\"b\":1}"}` yields the
nested mapping `{a: {b: 1}}`: the inner JSON-encoded string is fully parsed
into a nested mapping, not kept as the literal inner string. -/
theorem deepParseJson_nested_object_example :
    deepParseJson 10 (Json.str "\x7b\"a\":\"\x7b\\\"b\\\":1\x7d\"\x7d")
      = Json.obj [("a", Json.obj [("b", Json.num 1)])] := rfl

/-- C6 counterexample: on `"[[1]]"`, which parses to a sequence, the code
does not re-stringify the non-string element `[1]`: `JSON.parse` coerces it
with `String()` to `"1"`, so the result is `[1]`, not the `[[1]]` that the
re-stringify-then-normalize reading predicts. -/
theorem deepParseJson_restringify_cex :
    jsonParse "[[1]]" = some (Json.arr [Json.arr [Json.num 1]])
    ∧ deepParseJson 10 (Json.str "[[1]]") = Json.arr [Json.num 1]
    ∧ Json.arr ([Json.arr [Json.num 1]].map
        (fun v => deepParseJson 9 (Json.str (convertToString v))))
        = Json.arr [Json.arr [Json.num 1]]
    ∧ deepParseJson 10 (Json.str "[[1]]")
        ≠ Json.arr ([Json.arr [Json.num 1]].map
            (fun v => deepParseJson 9 (Json.str (convertToString v)))) := by
  refine ⟨rfl, rfl, rfl, fun h => ?_⟩
  have h2 : Json.arr [Json.num 1] = Json.arr [Json.arr [Json.num 1]] := h
  injection h2 with h3
  injection h3 with h4 h5
  exact Json.noConfusion h4

/-- C6 (amended): when the input string parses to a sequence, every element
is passed directly to the recursive normalizer, without being re-stringified
first; a non-string element is therefore subjected to the JS `String()`
coercion inside `JSON.parse` rather than to JSON re-stringification. -/
theorem deepParseJson_array_branch (s : String) (xs : List Json) (fuel : Nat)
    (h : jsonParse s = some (Json.arr xs)) :
    deepParseJson (fuel + 1) (Json.str s) = Json.arr (xs.map (deepParseJson fuel)) := by
  unfold deepParseJson
  simp [jsToString, h, isNumericJsonValue]

/-- Witness for the amended C6 at the concrete input. -/
theorem deepParseJson_array_branch_witness :
    jsonParse "[[1]]" = some (Json.arr [Json.arr [Json.num 1]])
    ∧ deepParseJson 10 (Json.str "[[1]]")
        = Json.arr ([Json.arr [Json.num 1]].map (deepParseJson 9)) :=
  ⟨rfl, deepParseJson_array_branch "[[1]]" [Json.arr [Json.num 1]] 9 rfl⟩

/-- The readiness wait only inspects the initialization fields, which an
update of `readKeys` preserves. -/
theorem waitForInitialization_readKeys (st : EngineState) (z : List String) :
    waitForInitialization { st with readKeys := z } = waitForInitialization st := rfl

/-- The key just added is a member of the read-key set. -/
theorem mem_addReadKey (keys : List String) (key : String) :
    key ∈ addReadKey keys key := by
  unfold addReadKey
  by_cases h : key ∈ keys
  · simp [h]
  · simp [h]

/-- The read-key set always contains the key just added. -/
theorem addReadKey_contains (keys : List String) (key : String) :
    (addReadKey keys key).contains key = true := by
  simpa using mem_addReadKey keys key

/-- Reading after writing the same path succeeds with the written content. -/
theorem fsRead_fsWrite (w : List (String × String)) (path content : String) :
    fsRead (fsWrite w path content) path = Except.ok content := by
  simp [fsRead, fsWrite, List.find?]

/-- C1: a read failure on a key read for the first time on this instance,
with the follow-up existence check confirming absence, resolves to the
empty string without touching the failure callback or the error sink; in
every other read-failure case the failure goes through the error policy:
the combined message is logged, the callback (if any) gets the wrapped
error, and the original error is re-raised. -/
theorem getItem_first_read_policy (opts : Options) (st : EngineState) (key : String)
    (e : JsError) (infoRes : Except JsError Bool) (hasOnFail : Bool)
    (hinit : waitForInitialization st = Except.ok ()) :
    (st.readKeys.contains key = false → evalExists infoRes = false →
      (getItem opts st key (Except.error e) infoRes hasOnFail).outcome = Except.ok ""
      ∧ (getItem opts st key (Except.error e) infoRes hasOnFail).trace.onFailErrors = []
      ∧ (getItem opts st key (Except.error e) infoRes hasOnFail).trace.errorLogs = [])
    ∧ ((st.readKeys.contains key = true ∨ evalExists infoRes = true) →
      (getItem opts st key (Except.error e) infoRes hasOnFail).outcome = Except.error e
      ∧ (getItem opts st key (Except.error e) infoRes hasOnFail).trace
          = failureTrace (handleStorageError
              (getItemErrorMessage (!(st.readKeys.contains key)) key) e hasOnFail)) := by
  have hw : waitForInitialization { st with readKeys := addReadKey st.readKeys key }
      = Except.ok () := hinit
  constructor
  · intro hfirst hex
    have hmem : key ∉ st.readKeys := by simpa using hfirst
    simp [getItem, hinit, itemExists, hw, hmem, hex]
  · intro hcase
    by_cases hmem : key ∈ st.readKeys
    · simp [getItem, hinit, itemExists, hw, hmem, handleStorageError, failureTrace]
    · have hx : evalExists infoRes = true := by
        rcases hcase with h | h
        · exact absurd h (by simp [hmem])
        · exact h
      simp [getItem, hinit, itemExists, hw, hmem, hx, handleStorageError, failureTrace]

/-- Witness for C1: a fresh instance, a missing file, a confirming
existence check. -/
theorem getItem_first_read_policy_witness :
    (getItem (Options.mk "/d/" false)
        (EngineState.mk [] false (InitPromise.settled (Except.ok ()))) "k"
        (Except.error (JsError.mk "ENOENT")) (Except.ok false) true).outcome
      = Except.ok ""
    ∧ (getItem (Options.mk "/d/" false)
        (EngineState.mk [] false (InitPromise.settled (Except.ok ()))) "k"
        (Except.error (JsError.mk "ENOENT")) (Except.ok false) true).trace.onFailErrors
      = [] := by
  have h := getItem_first_read_policy (Options.mk "/d/" false)
    (EngineState.mk [] false (InitPromise.settled (Except.ok ()))) "k"
    (JsError.mk "ENOENT") (Except.ok false) true rfl
  exact ⟨(h.1 rfl rfl).1, (h.1 rfl rfl).2.1⟩

/-- C9: `getItem` records the key in the read-tracking set before the read
is attempted, so the benign empty-string result is available at most once
per key: any later failing read of the same key propagates the failure. -/
theorem getItem_read_tracking (opts : Options) (st : EngineState) (key : String)
    (readRes : Except JsError String) (infoRes : Except JsError Bool)
    (hasOnFail : Bool) (e : JsError)
    (hinit : waitForInitialization st = Except.ok ()) :
    (getItem opts st key readRes infoRes hasOnFail).state.readKeys.contains key = true
    ∧ (st.readKeys.contains key = true →
        (getItem opts st key (Except.error e) infoRes hasOnFail).outcome = Except.error e)
    ∧ (st.readKeys.contains key = false → evalExists infoRes = false →
        (getItem opts st key (Except.error e) infoRes hasOnFail).outcome = Except.ok ""
        ∧ (getItem opts (getItem opts st key (Except.error e) infoRes hasOnFail).state
            key (Except.error e) infoRes hasOnFail).outcome = Except.error e) := by
  have hw : waitForInitialization { st with readKeys := addReadKey st.readKeys key }
      = Except.ok () := hinit
  refine ⟨?_, ?_, ?_⟩
  · rcases readRes with rerr | rok
    · simp only [getItem, hinit, itemExists, hw]
      by_cases hmem : key ∈ st.readKeys
      · simp [hmem, mem_addReadKey]
      · by_cases hx : evalExists infoRes
        · simp [hmem, hx, mem_addReadKey]
        · simp [hmem, hx, mem_addReadKey]
    · simp [getItem, hinit, mem_addReadKey]
  · intro hc
    have hmem : key ∈ st.readKeys := by simpa using hc
    simp [getItem, hinit, itemExists, hw, hmem, handleStorageError]
  · intro hfirst hx
    have hmem : key ∉ st.readKeys := by simpa using hfirst
    have h1 : (getItem opts st key (Except.error e) infoRes hasOnFail).outcome
        = Except.ok "" := by
      simp [getItem, hinit, itemExists, hw, hmem, hx]
    have hstate : (getItem opts st key (Except.error e) infoRes hasOnFail).state
        = { st with readKeys := addReadKey st.readKeys key } := by
      simp [getItem, hinit, itemExists, hw, hmem, hx]
    refine ⟨h1, ?_⟩
    rw [hstate]
    have hw2 : waitForInitialization
        { st with readKeys := addReadKey (addReadKey st.readKeys key) key }
        = Except.ok () := hinit
    simp [getItem, hw, itemExists, hw2, mem_addReadKey, handleStorageError]

/-- C2: a throwing `beforeInit` hook settles the initialization task as
failed without setting `isInitialized`, and then every public operation
(here `getItem` and `setItem`) fails with that initialization error, with
no state change and no observable file-system side effect; and the
readiness gate returns immediately once initialization completed, returns
the settled outcome of the retained initialization task otherwise, and
fails with the `INITIALIZATION_PROMISE_NOT_FOUND` error when no
initialization task exists at all. -/
theorem initialization_failure_gates_operations (e : JsError)
    (getInfoRes : Except JsError Bool) (mkDirRes : Except JsError Unit)
    (afterInit : Option (Except JsError Unit)) (opts : Options)
    (key value : String) (readRes : Except JsError String)
    (infoRes : Except JsError Bool) (writeRes : Except JsError Unit)
    (hasOnFail : Bool) (st : EngineState) (r : Except JsError Unit) :
    (initStorage (some (Except.error e)) getInfoRes mkDirRes afterInit).result
        = Except.error e
    ∧ (initStorage (some (Except.error e)) getInfoRes mkDirRes afterInit).inited
        = false
    ∧ getItem opts (mkEngine (some (Except.error e)) getInfoRes mkDirRes afterInit)
        key readRes infoRes hasOnFail
        = ⟨Except.error e,
           mkEngine (some (Except.error e)) getInfoRes mkDirRes afterInit, {}⟩
    ∧ setItem opts (mkEngine (some (Except.error e)) getInfoRes mkDirRes afterInit)
        key value writeRes hasOnFail
        = ⟨Except.error e,
           mkEngine (some (Except.error e)) getInfoRes mkDirRes afterInit, {}⟩
    ∧ (st.isInitialized = true → waitForInitialization st = Except.ok ())
    ∧ (st.isInitialized = false → st.initPromise = InitPromise.settled r →
        waitForInitialization st = r)
    ∧ (st.isInitialized = false → st.initPromise = InitPromise.missing →
        waitForInitialization st
          = Except.error (JsError.mk initPromiseNotFoundMsg)) := by
  refine ⟨rfl, rfl, rfl, rfl, ?_, ?_, ?_⟩
  · intro h
    simp [waitForInitialization, h]
  · intro h hp
    simp [waitForInitialization, h, hp]
  · intro h hp
    simp [waitForInitialization, h, hp]

/-- Witness for C2: concrete failing hook and a concrete gate state. -/
theorem initialization_failure_gates_operations_witness :
    (getItem (Options.mk "/d/" false)
        (mkEngine (some (Except.error (JsError.mk "beforeInit failed")))
          (Except.ok true) (Except.ok ()) none) "k" (Except.ok "x") (Except.ok true)
        false).outcome
      = Except.error (JsError.mk "beforeInit failed")
    ∧ waitForInitialization
        (EngineState.mk [] false (InitPromise.settled
          (Except.error (JsError.mk "beforeInit failed"))))
      = Except.error (JsError.mk "beforeInit failed") := by
  have h := initialization_failure_gates_operations (JsError.mk "beforeInit failed")
    (Except.ok true) (Except.ok ()) none (Options.mk "/d/" false) "k" "v"
    (Except.ok "x") (Except.ok true) (Except.ok ()) false
    (EngineState.mk [] false (InitPromise.settled
      (Except.error (JsError.mk "beforeInit failed"))))
    (Except.error (JsError.mk "beforeInit failed"))
  refine ⟨?_, h.2.2.2.2.2.1 rfl rfl⟩
  rw [h.2.2.1]

/-- C4: a successful `setItem` followed by `getItem` on the same key
round-trips the value exactly: the write stores the value at the encoded
path, the subsequent read of that path yields it, and `getItem` resolves
with it. -/
theorem set_then_get_roundtrip (opts : Options) (st : EngineState)
    (key value : String) (w : List (String × String))
    (infoRes : Except JsError Bool) (hasOnFail : Bool)
    (hinit : waitForInitialization st = Except.ok ()) :
    (setItem opts st key value (Except.ok ()) hasOnFail).outcome = Except.ok ()
    ∧ (setItem opts st key value (Except.ok ()) hasOnFail).state = st
    ∧ fsRead (fsWrite w (pathForKey opts key) value) (pathForKey opts key)
        = Except.ok value
    ∧ (getItem opts (setItem opts st key value (Except.ok ()) hasOnFail).state key
        (fsRead (fsWrite w (pathForKey opts key) value) (pathForKey opts key))
        infoRes hasOnFail).outcome
        = Except.ok value := by
  have hset : (setItem opts st key value (Except.ok ()) hasOnFail).state = st := by
    simp [setItem, hinit]
  refine ⟨by simp [setItem, hinit], hset, fsRead_fsWrite w _ value, ?_⟩
  rw [hset, fsRead_fsWrite w _ value]
  simp [getItem, hinit]

/-- Witness for C4 at a concrete key, value and directory. -/
theorem set_then_get_roundtrip_witness :
    (getItem (Options.mk "/d/" false)
        (setItem (Options.mk "/d/" false)
          (EngineState.mk [] true InitPromise.missing) "user:1"
          "\x7b\"name\":\"Ana\"\x7d" (Except.ok ()) false).state "user:1"
        (fsRead
          (fsWrite [] (pathForKey (Options.mk "/d/" false) "user:1")
            "\x7b\"name\":\"Ana\"\x7d")
          (pathForKey (Options.mk "/d/" false) "user:1"))
        (Except.ok true) false).outcome
      = Except.ok "\x7b\"name\":\"Ana\"\x7d" :=
  (set_then_get_roundtrip (Options.mk "/d/" false)
    (EngineState.mk [] true InitPromise.missing) "user:1" "\x7b\"name\":\"Ana\"\x7d"
    [] (Except.ok true) false rfl).2.2.2

/-- C8: `hasStoredItems` resolves to `true` exactly when the directory
listing is non-empty; a failing listing resolves to `false` after the
error is routed through the error policy for logging only (no failure
callback, no rejection); the returned promise always resolves to a
boolean. -/
theorem hasStoredItems_spec (opts : Options) (st : EngineState)
    (files : List String) (e : JsError)
    (hinit : waitForInitialization st = Except.ok ()) :
    ((hasStoredItems opts st (Except.ok files)).outcome = Except.ok true ↔ files ≠ [])
    ∧ (hasStoredItems opts st (Except.error e)).outcome = Except.ok false
    ∧ (hasStoredItems opts st (Except.error e)).trace.errorLogs
        = [errorLogLine ("(hasStoredItems): Error checking for stored items: "
            ++ e.message)]
    ∧ (hasStoredItems opts st (Except.error e)).trace.onFailErrors = []
    ∧ (∀ listRes, ∃ b, (hasStoredItems opts st listRes).outcome = Except.ok b) := by
  refine ⟨?_, ?_, ?_, ?_, ?_⟩
  · simp [hasStoredItems, hinit, List.length_pos]
  · simp [hasStoredItems, hinit]
  · simp [hasStoredItems, hinit, handleStorageError, errorLogLine]
  · simp [hasStoredItems, hinit]
  · intro listRes
    rcases listRes with lerr | lok
    · exact ⟨false, by simp [hasStoredItems, hinit]⟩
    · exact ⟨decide (0 < lok.length), by simp [hasStoredItems, hinit]⟩

/-- Witness for C8 at concrete listings. -/
theorem hasStoredItems_spec_witness :
    ((hasStoredItems (Options.mk "/d/" false)
        (EngineState.mk [] true InitPromise.missing)
        (Except.ok ["a"])).outcome = Except.ok true ↔ (["a"] : List String) ≠ [])
    ∧ (hasStoredItems (Options.mk "/d/" false)
        (EngineState.mk [] true InitPromise.missing)
        (Except.error (JsError.mk "EPERM"))).outcome = Except.ok false :=
  ⟨(hasStoredItems_spec (Options.mk "/d/" false)
      (EngineState.mk [] true InitPromise.missing) ["a"] (JsError.mk "EPERM") rfl).1,
   (hasStoredItems_spec (Options.mk "/d/" false)
      (EngineState.mk [] true InitPromise.missing) ["a"] (JsError.mk "EPERM") rfl).2.1⟩

/-- C10: `clear` empties the read-tracking set before either file-system
call is issued, so the set is empty afterwards even when the deletion or
the recreation fails and the failure is re-raised; after such a failed
`clear`, a `getItem` on any key is treated as a first-time read again. -/
theorem clear_resets_read_tracking (opts : Options) (st : EngineState)
    (delRes mkDirRes : Except JsError Unit) (hasOnFail : Bool)
    (key : String) (e d : JsError) (infoRes : Except JsError Bool)
    (hinit : waitForInitialization st = Except.ok ()) :
    (clear opts st delRes mkDirRes hasOnFail).state.readKeys = []
    ∧ (delRes = Except.error d →
        (clear opts st delRes mkDirRes hasOnFail).outcome = Except.error d)
    ∧ (delRes = Except.ok () → mkDirRes = Except.error d →
        (clear opts st delRes mkDirRes hasOnFail).outcome = Except.error d)
    ∧ (evalExists infoRes = false →
        (getItem opts (clear opts st delRes mkDirRes hasOnFail).state key
          (Except.error e) infoRes hasOnFail).outcome = Except.ok "") := by
  have hcl : (clear opts st delRes mkDirRes hasOnFail).state
      = { st with readKeys := [] } := by
    rcases delRes with derr | dok
    · simp [clear, hinit]
    · rcases mkDirRes with merr | mok
      · simp [clear, hinit]
      · simp [clear, hinit]
  refine ⟨by rw [hcl], ?_, ?_, ?_⟩
  · intro hd
    subst hd
    simp [clear, hinit, handleStorageError]
  · intro hd hm
    subst hd
    subst hm
    simp [clear, hinit, handleStorageError]
  · intro hx
    rw [hcl]
    have hw : waitForInitialization { st with readKeys := ([] : List String) }
        = Except.ok () := hinit
    have hw2 : waitForInitialization
        { st with readKeys := addReadKey [] key } = Except.ok () := hinit
    simp [getItem, hw, itemExists, hw2, hx]

/-- Witness for C10: a failed deletion on an instance that had read keys. -/
theorem clear_resets_read_tracking_witness :
    (clear (Options.mk "/d/" false)
        (EngineState.mk ["a", "b"] true InitPromise.missing)
        (Except.error (JsError.mk "EBUSY")) (Except.ok ()) false).state.readKeys = []
    ∧ (getItem (Options.mk "/d/" false)
        (clear (Options.mk "/d/" false)
          (EngineState.mk ["a", "b"] true InitPromise.missing)
          (Except.error (JsError.mk "EBUSY")) (Except.ok ()) false).state "a"
        (Except.error (JsError.mk "ENOENT")) (Except.ok false) false).outcome
      = Except.ok "" := by
  have h := clear_resets_read_tracking (Options.mk "/d/" false)
    (EngineState.mk ["a", "b"] true InitPromise.missing)
    (Except.error (JsError.mk "EBUSY")) (Except.ok ()) false "a"
    (JsError.mk "ENOENT") (JsError.mk "EBUSY") (Except.ok false) rfl
  exact ⟨h.1, h.2.2.2 rfl⟩

/-- Witness for C9: a key already in the read-tracking set propagates a
failing read, and the key stays tracked. -/
theorem getItem_read_tracking_witness :
    (getItem (Options.mk "/d/" false)
        (EngineState.mk ["k"] true InitPromise.missing) "k"
        (Except.error (JsError.mk "ENOENT")) (Except.ok false)
        false).state.readKeys.contains "k" = true
    ∧ (getItem (Options.mk "/d/" false)
        (EngineState.mk ["k"] true InitPromise.missing) "k"
        (Except.error (JsError.mk "ENOENT")) (Except.ok false) false).outcome
      = Except.error (JsError.mk "ENOENT") := by
  have h := getItem_read_tracking (Options.mk "/d/" false)
    (EngineState.mk ["k"] true InitPromise.missing) "k"
    (Except.error (JsError.mk "ENOENT")) (Except.ok false) false
    (JsError.mk "ENOENT") rfl
  exact ⟨h.1, h.2.1 (by decide)⟩
